import Mathlib

/-!
A verification development for the mosdns dispatcher fragment:
the default server handler (admission control, pipeline driving,
reply synthesis), the per-client query limiter, and the hosts plugin.

Go sources embedded here:
  * dispatcher/utils/server_handler.go   (DefaultServerHandler, ClientQueryLimiter)
  * dispatcher/plugin/hosts/hosts.go     (hostsContainer, parseIP)

External collaborators (the miekg/dns message type, handler.Context,
ConcurrentMap, ConcurrentLimiter, the walker) are not part of the
visible sources; they are modelled from the specification, with a
doc comment marking each such definition.
-/

namespace Mosdns

/-! ## DNS message model (the fragment of miekg/dns the sources use) -/

/-- dns.TypeA. -/
def TypeA : Nat := 1
/-- dns.TypeAAAA. -/
def TypeAAAA : Nat := 28
/-- dns.ClassINET. -/
def ClassINET : Nat := 1
/-- dns.RcodeSuccess. -/
def RcodeSuccess : Nat := 0
/-- dns.RcodeServerFailure. -/
def RcodeServerFailure : Nat := 2
/-- dns.RcodeRefused. -/
def RcodeRefused : Nat := 5

/-- One entry of a DNS question section (dns.Question). -/
structure Question where
  name : String
  qtype : Nat
  qclass : Nat
deriving Repr, DecidableEq

/-- A resource-record header (dns.RR_Header). `rrclass` stands for the Go
field `Class` (a Lean keyword). -/
structure RRHeader where
  name : String
  rrtype : Nat
  rrclass : Nat
  ttl : Nat
deriving Repr, DecidableEq

/-- A resource record: the header plus its address payload (the bytes of
the A/AAAA rdata, as the source only ever builds address records). -/
structure RR where
  hdr : RRHeader
  rdata : List Nat
deriving Repr, DecidableEq

/-- The fields of dns.Msg that the embedded sources read or write. -/
structure Msg where
  id : Nat
  response : Bool
  rcode : Nat
  question : List Question
  answer : List RR
deriving Repr, DecidableEq

/-- miekg/dns Msg.SetReply applied to a freshly allocated message
(`new(dns.Msg)` then `r.SetReply(q)`): copies the request id, marks the
message a response with Rcode success, copies the first question when one
exists, and leaves the answer section empty. -/
def setReply (q : Msg) : Msg :=
  { id := q.id
    response := true
    rcode := RcodeSuccess
    question := match q.question with
      | [] => []
      | q0 :: _ => [q0]
    answer := [] }

/-! ## Query context (handler.Context) -/

/-- Modelled from the spec: the query-context status set
`unhandled, responded, rejected, dropped, server_failed`
(handler.Context is not among the visible sources). -/
inductive ContextStatus where
  | unhandled
  | responded
  | rejected
  | dropped
  | serverFailed
deriving Repr, DecidableEq

/-- Modelled from the spec: handler.Context, the per-query container.
Deferred actions are identified by opaque labels (`Nat`); the stack stores
the most recently pushed action at the head. -/
structure QContext where
  q : Msg
  r : Option Msg
  status : ContextStatus
  fromAddr : Option String
  deferred : List Nat
deriving Repr, DecidableEq

/-- Modelled from the spec: handler.Context.SetResponse sets the carried
response and the status. -/
def setResponse (r : Msg) (s : ContextStatus) (c : QContext) : QContext :=
  { c with r := some r, status := s }

/-- Modelled from the spec: a stage pushes a deferred action onto the
context's stack. -/
def pushDefer (a : Nat) (c : QContext) : QContext :=
  { c with deferred := a :: c.deferred }

/-- Modelled from the spec: handler.Context.ExecDefer pops and runs the
deferred actions in LIFO order (head of the stack first, i.e. most
recently pushed first). It returns the labels of the actions in the order
they ran together with the drained context. Per the spec, errors of
deferred actions are logged and do not propagate, so no error is
returned. -/
def execDefer (c : QContext) : List Nat × QContext :=
  (c.deferred, { c with deferred := [] })

/-! ## Hosts plugin (dispatcher/plugin/hosts/hosts.go) -/

/-- hosts.ipRecord: the ipv4 and ipv6 address lists stored under a
matcher key. An address is its byte list. -/
structure ipRecord where
  ipv4 : List (List Nat)
  ipv6 : List (List Nat)
deriving Repr, DecidableEq

/-- hosts.hostsContainer. The domain matcher is external to the visible
sources; it is carried as the match function it provides: the value found
for a fully qualified name, if any. -/
structure hostsContainer where
  matcher : String → Option ipRecord

/-- The answer record the hosts plugin builds for one address: the
question's name, the given record type, class IN and TTL 3600. -/
def hostsRR (name : String) (rrtype : Nat) (ip : List Nat) : RR :=
  { hdr := { name := name, rrtype := rrtype, rrclass := ClassINET, ttl := 3600 }
    rdata := ip }

/-- hosts.hostsContainer.matchAndSet, translated from the source: with
exactly one question, look the name up; on an A query with a non-empty
ipv4 list (resp. AAAA and ipv6) build a SetReply of the query carrying
one address record per stored address in stored order, install it with
status responded and report a match; otherwise report no match and leave
the context untouched. -/
def matchAndSet (h : hostsContainer) (qCtx : QContext) : Bool × QContext :=
  match qCtx.q.question with
  | [q0] =>
    match h.matcher q0.name with
    | none => (false, qCtx)
    | some record =>
      if q0.qtype = TypeA then
        if record.ipv4 ≠ [] then
          (true, setResponse
            { setReply qCtx.q with answer := record.ipv4.map (hostsRR q0.name TypeA) }
            ContextStatus.responded qCtx)
        else (false, qCtx)
      else if q0.qtype = TypeAAAA then
        if record.ipv6 ≠ [] then
          (true, setResponse
            { setReply qCtx.q with answer := record.ipv6.map (hostsRR q0.name TypeAAAA) }
            ContextStatus.responded qCtx)
        else (false, qCtx)
      else (false, qCtx)
  | _ => (false, qCtx)

/-- hosts.hostsContainer.ExecES: `return h.matchAndSet(qCtx), nil`.
The triple is (earlyStop, err, resulting context); errors are
`Option String` with `none` standing for Go's nil error. -/
def ExecES (h : hostsContainer) (qCtx : QContext) : Bool × Option String × QContext :=
  let p := matchAndSet h qCtx
  (p.1, none, p.2)

/-- A Go net.IP as the hosts loader classifies it: the results of its
To4 and To16 conversions. -/
structure GoIP where
  to4 : Option (List Nat)
  to16 : Option (List Nat)
deriving Repr, DecidableEq

/-- The loop body of hosts.parseIP over the remaining strings,
accumulating into `record`. `netParseIP` stands for the external
net.ParseIP. Returns (value, accept, err) as in the source. -/
def parseIPLoop (netParseIP : String → Option GoIP) (record : ipRecord) :
    List String → Option ipRecord × Bool × Option String
  | [] => (some record, true, none)
  | ipStr :: rest =>
    match netParseIP ipStr with
    | none => (none, false, some ("invalid ip addr " ++ ipStr))
    | some ip =>
      match ip.to4 with
      | some ipv4 => parseIPLoop netParseIP { record with ipv4 := record.ipv4 ++ [ipv4] } rest
      | none =>
        match ip.to16 with
        | some ipv6 => parseIPLoop netParseIP { record with ipv6 := record.ipv6 ++ [ipv6] } rest
        | none => (none, false, some (ipStr ++ " is not an ipv4 or ipv6 addr"))

/-- hosts.parseIP: an empty string list is not accepted and raises no
error; otherwise every string is parsed and classified into the ipv4 or
ipv6 list of a fresh record, any unparsable string failing the whole
call. -/
def parseIP (netParseIP : String → Option GoIP) (s : List String) :
    Option ipRecord × Bool × Option String :=
  if s.length = 0 then (none, false, none)
  else parseIPLoop netParseIP { ipv4 := [], ipv6 := [] } s

/-! ## Per-client query limiter (dispatcher/utils/server_handler.go) -/

/-- Modelled from the spec: the ConcurrentMap the limiter uses, flattened
to one association list from client key to stored count (the sharding by
hash is invisible to the map's sequential semantics). Go stores the count
as an `int`, hence `Int`. -/
abbrev ClientMap := List (String × Int)

/-- Lookup in the client map: the Go `v, ok := m[key]` pair, with `none`
for absent. -/
def mapLookup (m : ClientMap) (key : String) : Option Int :=
  match m with
  | [] => none
  | (k, v) :: rest => if k = key then some v else mapLookup rest key

/-- Store a value under a key (Go `m[key] = v`). -/
def mapSet (m : ClientMap) (key : String) (v : Int) : ClientMap :=
  match m with
  | [] => [(key, v)]
  | (k, w) :: rest => if k = key then (k, v) :: rest else (k, w) :: mapSet rest key v

/-- Remove a key (Go `delete(m, key)`). -/
def mapDelete (m : ClientMap) (key : String) : ClientMap :=
  match m with
  | [] => []
  | (k, w) :: rest => if k = key then mapDelete rest key else (k, w) :: mapDelete rest key

/-- Modelled from the spec: ConcurrentMap.TestAndSet observes
`(value, present)` for the key, runs the callback to obtain
`(newV, wantUpdate, passed)`, applies the update when requested — a nil
new value deleting the entry, any other storing it — and returns
`passed`. A callback result of `none` stands for a callback that
panicked, which aborts the whole operation. -/
def TestAndSet (m : ClientMap) (key : String)
    (f : Option Int → Option (Option Int × Bool × Bool)) :
    Option (ClientMap × Bool) :=
  match f (mapLookup m key) with
  | none => none
  | some (newV, wantUpdate, passed) =>
    let m := if wantUpdate then
        match newV with
        | none => mapDelete m key
        | some v => mapSet m key v
      else m
    some (m, passed)

/-- utils.ClientQueryLimiter: the per-client concurrent-query counter. -/
structure ClientQueryLimiter where
  maxQueries : Int
  m : ClientMap
deriving Repr, DecidableEq

/-- utils.ClientQueryLimiter.acquireTestAndSet: with the current count
(0 when absent), refuse when it already reaches maxQueries, otherwise
store the incremented count and pass. Never panics, hence always
`some`. -/
def acquireTestAndSet (maxQueries : Int) (v : Option Int) :
    Option (Option Int × Bool × Bool) :=
  let n : Int := match v with
    | none => 0
    | some k => k
  if n ≥ maxQueries then some (none, false, false)
  else some (some (n + 1), true, true)

/-- utils.ClientQueryLimiter.doneTestAndSet: panics when the key is
absent or the decrement goes negative; deletes the entry when the count
reaches 0; otherwise stores the decremented count. -/
def doneTestAndSet (v : Option Int) : Option (Option Int × Bool × Bool) :=
  match v with
  | none => none
  | some k =>
    let n := k - 1
    if n < 0 then none
    else if n = 0 then some (none, true, true)
    else some (some n, true, true)

/-- utils.ClientQueryLimiter.Acquire. The acquire callback never panics,
so the TestAndSet result is forced out of the panic option with the
unchanged limiter as the (unreachable) default. -/
def Acquire (l : ClientQueryLimiter) (key : String) : ClientQueryLimiter × Bool :=
  match TestAndSet l.m key (acquireTestAndSet l.maxQueries) with
  | some (m, passed) => ({ l with m := m }, passed)
  | none => (l, false)

/-- utils.ClientQueryLimiter.Done; `none` stands for the panic the
callback raises on an absent key or a negative count. -/
def Done (l : ClientQueryLimiter) (key : String) : Option ClientQueryLimiter :=
  match TestAndSet l.m key doneTestAndSet with
  | some (m, _) => some { l with m := m }
  | none => none

/-! ## Default server handler (dispatcher/utils/server_handler.go) -/

/-- utils.DefaultServerHandler, reduced to the state its control flow
reads: the optional per-client limiter (nil meaning no limit) and whether
the global concurrent limiter is present. The global limiter's FIFO
token pool is external state; which side of the handler's select fires
is an input of ServeDNS below. -/
structure DefaultServerHandler where
  clientLimiter : Option ClientQueryLimiter
  limiterEnabled : Bool

/-- An abstract walker: WalkExecutableCmd over the configured entry
sequence is outside the visible sources, so the handler is verified for
every function from a query context to an error and the mutated
context. -/
abbrev Walker := QContext → Option String × QContext

/-- utils.DefaultServerHandler.execEntry: run the walker; on a non-nil
error return it at once; otherwise run the context's deferred actions.
The result records (err, final context, labels of the deferred actions
that ran, in execution order). -/
def execEntry (walk : Walker) (qCtx : QContext) :
    Option String × QContext × List Nat :=
  match walk qCtx with
  | (some e, c) => (some e, c, [])
  | (none, c) =>
    let p := execDefer c
    (none, p.2, p.1)

/-- Everything observable about one ServeDNS run: the messages passed to
the response writer in order, whether the entry walker ran, which
deferred actions ran, whether the global semaphore was consulted, the
client limiter's state at return (including the release the handler
defers), and whether a limiter callback panicked. -/
structure ServeOutcome where
  writes : List Msg
  entryExecuted : Bool
  defersRun : List Nat
  semTouched : Bool
  clAfter : Option ClientQueryLimiter
  aborted : Bool
deriving Repr, DecidableEq

/-- Steps 2-5 of ServeDNS, after the per-client limiter admitted the
query: the global-limiter select (with `tokenAvailable` false standing
for the query context becoming done first — a silent drop), then
execEntry, then reply synthesis: SERVFAIL of the question on an error or
a server-failed status, else the carried response if any, else nothing.
`clAfter`/`aborted` carry the effect of the deferred clientLimiter.Done
computed by the caller. -/
def serveRest (walk : Walker) (tokenAvailable : Bool) (qCtx : QContext)
    (limiterEnabled : Bool) (clAfter : Option ClientQueryLimiter)
    (aborted : Bool) : ServeOutcome :=
  if limiterEnabled ∧ tokenAvailable = false then
    { writes := []
      entryExecuted := false
      defersRun := []
      semTouched := true
      clAfter := clAfter
      aborted := aborted }
  else
    let t := execEntry walk qCtx
    let err := t.1
    let c := t.2.1
    let ran := t.2.2
    let r : Option Msg :=
      if err ≠ none ∨ c.status = ContextStatus.serverFailed then
        some { setReply c.q with rcode := RcodeServerFailure }
      else c.r
    { writes := r.toList
      entryExecuted := true
      defersRun := ran
      semTouched := limiterEnabled
      clAfter := clAfter
      aborted := aborted }

/-- utils.DefaultServerHandler.ServeDNS. Step 1: when a per-client
limiter is set and the client address is non-nil, Acquire on the
address's textual key; on refusal write one REFUSED SetReply of the
question and return, touching nothing else; on success defer Done on the
same key. The rest is serveRest. -/
def ServeDNS (h : DefaultServerHandler) (walk : Walker)
    (tokenAvailable : Bool) (qCtx : QContext) : ServeOutcome :=
  match h.clientLimiter with
  | some cl =>
    match qCtx.fromAddr with
    | some addr =>
      let key := addr
      match Acquire cl key with
      | (cl1, passed) =>
        if passed ≠ true then
          { writes := [{ setReply qCtx.q with rcode := RcodeRefused }]
            entryExecuted := false
            defersRun := []
            semTouched := false
            clAfter := some cl1
            aborted := false }
        else
          match Done cl1 key with
          | some cl2 => serveRest walk tokenAvailable qCtx h.limiterEnabled (some cl2) false
          | none => serveRest walk tokenAvailable qCtx h.limiterEnabled (some cl1) true
    | none => serveRest walk tokenAvailable qCtx h.limiterEnabled (some cl) false
  | none => serveRest walk tokenAvailable qCtx h.limiterEnabled none false

/-! ## Concrete fixtures used by witnesses and counterexamples -/

/-- An A question for example.com. -/
def exQuestion : Question := { name := "example.com.", qtype := TypeA, qclass := ClassINET }

/-- A one-question query message. -/
def exMsg : Msg := { id := 42, response := false, rcode := 0, question := [exQuestion], answer := [] }

/-- A fresh query context carrying one deferred action labelled 7. -/
def exCtx : QContext :=
  { q := exMsg, r := none, status := ContextStatus.unhandled,
    fromAddr := some "1.2.3.4:53", deferred := [7] }

/-- A hosts record with two ipv4 addresses and no ipv6 address. -/
def exRecord : ipRecord := { ipv4 := [[1, 2, 3, 4], [5, 6, 7, 8]], ipv6 := [] }

/-- A hosts container whose matcher knows only example.com. -/
def exHosts : hostsContainer :=
  { matcher := fun n => if n = "example.com." then some exRecord else none }

/-- A walker that fails and leaves the context untouched. -/
def exWalkErr : Walker := fun c => (some "walk error", c)

/-- A walker that succeeds and leaves the context untouched. -/
def exWalkOk : Walker := fun c => (none, c)

/-! ## Helper lemmas -/

theorem execEntry_eq_of_err (walk : Walker) (qCtx : QContext) (e : String) (c : QContext)
    (hw : walk qCtx = (some e, c)) :
    execEntry walk qCtx = (some e, c, []) := by
  unfold execEntry
  rw [hw]

theorem execEntry_eq_of_ok (walk : Walker) (qCtx : QContext) (c : QContext)
    (hw : walk qCtx = (none, c)) :
    execEntry walk qCtx = (none, { c with deferred := [] }, c.deferred) := by
  unfold execEntry
  rw [hw]
  rfl

theorem serveRest_drop (walk : Walker) (qCtx : QContext)
    (cla : Option ClientQueryLimiter) (ab : Bool) :
    serveRest walk false qCtx true cla ab =
      { writes := [], entryExecuted := false, defersRun := [], semTouched := true,
        clAfter := cla, aborted := ab } := by
  simp [serveRest]

theorem serveRest_run (walk : Walker) (tok : Bool) (qCtx : QContext) (le : Bool)
    (cla : Option ClientQueryLimiter) (ab : Bool)
    (hcond : ¬(le = true ∧ tok = false)) :
    serveRest walk tok qCtx le cla ab =
      { writes := (if (execEntry walk qCtx).1 ≠ none
            ∨ (execEntry walk qCtx).2.1.status = ContextStatus.serverFailed
          then some { setReply (execEntry walk qCtx).2.1.q with rcode := RcodeServerFailure }
          else (execEntry walk qCtx).2.1.r).toList,
        entryExecuted := true, defersRun := (execEntry walk qCtx).2.2,
        semTouched := le, clAfter := cla, aborted := ab } := by
  unfold serveRest
  rw [if_neg hcond]

theorem ServeDNS_cases (h : DefaultServerHandler) (walk : Walker) (tok : Bool)
    (qCtx : QContext) :
    (∃ cl1, ServeDNS h walk tok qCtx =
      { writes := [{ setReply qCtx.q with rcode := RcodeRefused }],
        entryExecuted := false, defersRun := [], semTouched := false,
        clAfter := some cl1, aborted := false })
    ∨ (∃ cla ab, ServeDNS h walk tok qCtx = serveRest walk tok qCtx h.limiterEnabled cla ab) := by
  obtain ⟨cl?, le⟩ := h
  cases cl? with
  | none => exact Or.inr ⟨none, false, rfl⟩
  | some cl =>
    cases hfa : qCtx.fromAddr with
    | none =>
      refine Or.inr ⟨some cl, false, ?_⟩
      simp [ServeDNS, hfa]
    | some addr =>
      rcases ha : Acquire cl addr with ⟨cl1, passed⟩
      cases passed with
      | false =>
        refine Or.inl ⟨cl1, ?_⟩
        simp [ServeDNS, hfa, ha]
      | true =>
        cases hd : Done cl1 addr with
        | none =>
          refine Or.inr ⟨some cl1, true, ?_⟩
          simp [ServeDNS, hfa, ha, hd]
        | some cl2 =>
          refine Or.inr ⟨some cl2, false, ?_⟩
          simp [ServeDNS, hfa, ha, hd]

theorem toList_length_le_one (o : Option Msg) : o.toList.length ≤ 1 := by
  cases o <;> simp

theorem mapLookup_mapSet (m : ClientMap) (key : String) (v : Int) :
    mapLookup (mapSet m key v) key = some v := by
  induction m with
  | nil => simp [mapSet, mapLookup]
  | cons p rest ih =>
    obtain ⟨k, w⟩ := p
    by_cases hk : k = key <;> simp [mapSet, mapLookup, hk, ih]

/-! ## Claim theorems: hosts plugin -/

/-- C3: for a context with exactly one question, of type A, whose name the
hosts matcher resolves to a record with a non-empty ipv4 list, ExecES
installs as response a SetReply of the query whose answer carries exactly
one A record per stored address, in stored order, each with the
question's name, class IN and TTL 3600, sets status responded, and
returns early stop true with a nil error; and the analogous statement for
an AAAA question and the ipv6 list. -/
theorem hosts_hit_spec (h : hostsContainer) (qCtx : QContext) (q0 : Question)
    (record : ipRecord)
    (hq : qCtx.q.question = [q0])
    (hm : h.matcher q0.name = some record) :
    (q0.qtype = TypeA → record.ipv4 ≠ [] →
      ExecES h qCtx = (true, none,
        setResponse
          { setReply qCtx.q with answer := record.ipv4.map (hostsRR q0.name TypeA) }
          ContextStatus.responded qCtx))
    ∧ (q0.qtype = TypeAAAA → record.ipv6 ≠ [] →
      ExecES h qCtx = (true, none,
        setResponse
          { setReply qCtx.q with answer := record.ipv6.map (hostsRR q0.name TypeAAAA) }
          ContextStatus.responded qCtx)) := by
  constructor
  · intro ht hne
    simp [ExecES, matchAndSet, hq, hm, ht, hne]
  · intro ht hne
    simp [ExecES, matchAndSet, hq, hm, ht, hne, TypeA, TypeAAAA]

/-- C3 witness: a concrete A query for example.com against a hosts
container storing two ipv4 addresses for it. -/
theorem hosts_hit_spec_witness :
    exCtx.q.question = [exQuestion]
    ∧ exHosts.matcher exQuestion.name = some exRecord
    ∧ ((exQuestion.qtype = TypeA → exRecord.ipv4 ≠ [] →
        ExecES exHosts exCtx = (true, none,
          setResponse
            { setReply exCtx.q with answer := exRecord.ipv4.map (hostsRR exQuestion.name TypeA) }
            ContextStatus.responded exCtx))
      ∧ (exQuestion.qtype = TypeAAAA → exRecord.ipv6 ≠ [] →
        ExecES exHosts exCtx = (true, none,
          setResponse
            { setReply exCtx.q with answer := exRecord.ipv6.map (hostsRR exQuestion.name TypeAAAA) }
            ContextStatus.responded exCtx))) :=
  ⟨rfl, by decide, hosts_hit_spec exHosts exCtx exQuestion exRecord rfl (by decide)⟩

/-- C4: whenever the hosts stage does not produce a response — no single
question, or the name matches no record, or the qtype is neither A nor
AAAA, or the matched record's list for the queried family is empty —
ExecES reports no early stop, a nil error, and returns the context
unchanged. -/
theorem hosts_miss_spec (h : hostsContainer) (qCtx : QContext)
    (hmiss : qCtx.q.question.length ≠ 1
      ∨ ∃ q0, qCtx.q.question = [q0]
          ∧ (h.matcher q0.name = none
             ∨ ∃ record, h.matcher q0.name = some record
                ∧ ((q0.qtype ≠ TypeA ∧ q0.qtype ≠ TypeAAAA)
                   ∨ (q0.qtype = TypeA ∧ record.ipv4 = [])
                   ∨ (q0.qtype = TypeAAAA ∧ record.ipv6 = [])))) :
    ExecES h qCtx = (false, none, qCtx) := by
  have hms : matchAndSet h qCtx = (false, qCtx) := by
    rcases hmiss with hlen | ⟨q0, hq, hrest⟩
    · unfold matchAndSet
      split
      next q0' hq' => exact absurd (by rw [hq']; rfl) hlen
      next => rfl
    · rcases hrest with hnone | ⟨record, hsome, hcases⟩
      · simp [matchAndSet, hq, hnone]
      · rcases hcases with ⟨hA, hAAAA⟩ | ⟨hA, h4⟩ | ⟨hAAAA, h6⟩
        · simp [matchAndSet, hq, hsome, hA, hAAAA]
        · simp [matchAndSet, hq, hsome, hA, h4]
        · simp [matchAndSet, hq, hsome, hAAAA, h6, TypeA, TypeAAAA]
  simp [ExecES, hms]

/-- C4 witness: a query with an empty question section falls through
with the context untouched. -/
theorem hosts_miss_spec_witness :
    ((QContext.mk { exMsg with question := [] } none ContextStatus.unhandled
        (some "1.2.3.4:53") [7]).q.question.length ≠ 1
      ∨ ∃ q0, (QContext.mk { exMsg with question := [] } none ContextStatus.unhandled
            (some "1.2.3.4:53") [7]).q.question = [q0]
          ∧ (exHosts.matcher q0.name = none
             ∨ ∃ record, exHosts.matcher q0.name = some record
                ∧ ((q0.qtype ≠ TypeA ∧ q0.qtype ≠ TypeAAAA)
                   ∨ (q0.qtype = TypeA ∧ record.ipv4 = [])
                   ∨ (q0.qtype = TypeAAAA ∧ record.ipv6 = []))))
    ∧ ExecES exHosts (QContext.mk { exMsg with question := [] } none ContextStatus.unhandled
        (some "1.2.3.4:53") [7])
      = (false, none, QContext.mk { exMsg with question := [] } none ContextStatus.unhandled
          (some "1.2.3.4:53") [7]) :=
  ⟨Or.inl (by decide),
   hosts_miss_spec exHosts
     (QContext.mk { exMsg with question := [] } none ContextStatus.unhandled
       (some "1.2.3.4:53") [7])
     (Or.inl (by decide))⟩

/-- C9: the hosts stage's ExecES never fails: its error component is nil
for every container and every query context. -/
theorem execES_no_error (h : hostsContainer) (qCtx : QContext) :
    (ExecES h qCtx).2.1 = none := rfl

/-- C10: parseIP on an empty list of IP strings is (nil, false, nil):
not accepted, no error, whatever the underlying address parser does. -/
theorem parseIP_empty (netParseIP : String → Option GoIP) :
    parseIP netParseIP [] = (none, false, none) := rfl

/-! ## Claim theorems: per-client limiter -/

/-- C5: Acquire refuses and leaves the limiter unchanged when the current
count for the key (0 when absent) already reaches maxQueries, and
otherwise grants and stores the count incremented by one. -/
theorem Acquire_spec (l : ClientQueryLimiter) (key : String) :
    (Option.getD (mapLookup l.m key) 0 ≥ l.maxQueries →
      (Acquire l key).2 = false ∧ (Acquire l key).1 = l)
    ∧ (Option.getD (mapLookup l.m key) 0 < l.maxQueries →
      (Acquire l key).2 = true
      ∧ mapLookup (Acquire l key).1.m key
          = some (Option.getD (mapLookup l.m key) 0 + 1)) := by
  cases hv : mapLookup l.m key with
  | none =>
    simp only [Acquire, TestAndSet, acquireTestAndSet, hv, Option.getD_none]
    split_ifs with hc
    · exact ⟨fun _ => ⟨rfl, rfl⟩, fun hlt => absurd hc (by omega)⟩
    · refine ⟨fun hge => absurd hge hc, fun _ => ⟨rfl, ?_⟩⟩
      simpa using mapLookup_mapSet l.m key 1
  | some n =>
    simp only [Acquire, TestAndSet, acquireTestAndSet, hv, Option.getD_some]
    split_ifs with hc
    · exact ⟨fun _ => ⟨rfl, rfl⟩, fun hlt => absurd hc (by omega)⟩
    · refine ⟨fun hge => absurd hge hc, fun _ => ⟨rfl, ?_⟩⟩
      simpa using mapLookup_mapSet l.m key (n + 1)

/-- C5 witness: with limit 1 and an empty map, Acquire grants and stores
count 1. -/
theorem Acquire_spec_witness :
    Option.getD (mapLookup (ClientQueryLimiter.mk 1 []).m "k") 0
        < (ClientQueryLimiter.mk 1 []).maxQueries
    ∧ (Acquire (ClientQueryLimiter.mk 1 []) "k").2 = true
    ∧ mapLookup (Acquire (ClientQueryLimiter.mk 1 []) "k").1.m "k"
        = some (Option.getD (mapLookup (ClientQueryLimiter.mk 1 []).m "k") 0 + 1) :=
  ⟨by decide, (Acquire_spec (ClientQueryLimiter.mk 1 []) "k").2 (by decide)⟩

/-- C6: Done deletes the entry when the stored count 1 reaches 0 after
the decrement, stores the decremented count when it stays positive, and
panics (modelled as none) when the key is absent or the decrement would
go below 0. -/
theorem Done_spec (l : ClientQueryLimiter) (key : String) :
    (mapLookup l.m key = none → Done l key = none)
    ∧ (∀ n : Int, mapLookup l.m key = some n →
        ((n ≤ 0 → Done l key = none)
         ∧ (n = 1 → Done l key = some { l with m := mapDelete l.m key })
         ∧ (1 < n → Done l key = some { l with m := mapSet l.m key (n - 1) }))) := by
  refine ⟨fun hv => ?_, fun n hv => ⟨fun hn => ?_, fun hn => ?_, fun hn => ?_⟩⟩
  · simp [Done, TestAndSet, doneTestAndSet, hv]
  · have h1 : n - 1 < 0 := by omega
    simp [Done, TestAndSet, doneTestAndSet, hv, h1]
  · subst hn
    norm_num [Done, TestAndSet, doneTestAndSet, hv]
  · have h1 : ¬(n - 1 < 0) := by omega
    have h2 : ¬(n - 1 = 0) := by omega
    simp [Done, TestAndSet, doneTestAndSet, hv, h1, h2]

/-- C6 witness: with the count for the key stored as 1, Done removes the
entry; the instantiating limiter is limit 1 with one live query. -/
theorem Done_spec_witness :
    mapLookup (ClientQueryLimiter.mk 1 [("k", 1)]).m "k" = some 1
    ∧ Done (ClientQueryLimiter.mk 1 [("k", 1)]) "k"
        = some { ClientQueryLimiter.mk 1 [("k", 1)] with
                   m := mapDelete (ClientQueryLimiter.mk 1 [("k", 1)]).m "k" } :=
  ⟨by decide,
   ((Done_spec (ClientQueryLimiter.mk 1 [("k", 1)]) "k").2 1 (by decide)).2.1 rfl⟩

/-! ## Claim theorems: server handler -/

/-- C1 counterexample: with no limiters configured, a walker that
returns an error and a context holding one deferred action, the handler
does run the entry (the query is admitted) and yet runs no deferred
action at all, refuting the claim that the deferred actions run exactly
once even when the walker returned a non-nil error. -/
theorem serveDNS_defer_on_error_cex :
    (exWalkErr exCtx).1 ≠ none
    ∧ (ServeDNS (DefaultServerHandler.mk none false) exWalkErr true exCtx).entryExecuted = true
    ∧ exCtx.deferred = [7]
    ∧ (ServeDNS (DefaultServerHandler.mk none false) exWalkErr true exCtx).defersRun = [] := by
  refine ⟨?_, ?_, ?_, ?_⟩ <;> decide

/-- C1 amended: for every admitted query (one that reaches the entry),
the handler runs the context's deferred actions exactly once in LIFO
order (the stack order, most recently pushed first) when the walker
returns a nil error, and runs none of them when the walker returns a
non-nil error. -/
theorem serveDNS_defer_amended (h : DefaultServerHandler) (walk : Walker)
    (tok : Bool) (qCtx : QContext)
    (hrun : (ServeDNS h walk tok qCtx).entryExecuted = true) :
    ((walk qCtx).1 = none →
      (ServeDNS h walk tok qCtx).defersRun = (walk qCtx).2.deferred)
    ∧ ((walk qCtx).1 ≠ none → (ServeDNS h walk tok qCtx).defersRun = []) := by
  rcases ServeDNS_cases h walk tok qCtx with ⟨cl1, hs⟩ | ⟨cla, ab, hs⟩
  · rw [hs] at hrun
    simp at hrun
  · rw [hs] at hrun ⊢
    by_cases hcond : h.limiterEnabled = true ∧ tok = false
    · obtain ⟨h1, h2⟩ := hcond
      subst h2
      rw [h1, serveRest_drop] at hrun
      simp at hrun
    · rw [serveRest_run walk tok qCtx _ cla ab hcond]
      rcases hw : walk qCtx with ⟨err, c⟩
      cases err with
      | none =>
        rw [execEntry_eq_of_ok walk qCtx c hw]
        exact ⟨fun _ => by simp, fun hne => by simp at hne⟩
      | some e =>
        rw [execEntry_eq_of_err walk qCtx e c hw]
        exact ⟨fun heq => by simp at heq, fun _ => by simp⟩

/-- C1 amended witness: with no limiters and an error-free walker, the
single deferred action of the context runs. -/
theorem serveDNS_defer_amended_witness :
    (ServeDNS (DefaultServerHandler.mk none false) exWalkOk true exCtx).entryExecuted = true
    ∧ (((exWalkOk exCtx).1 = none →
        (ServeDNS (DefaultServerHandler.mk none false) exWalkOk true exCtx).defersRun
          = (exWalkOk exCtx).2.deferred)
      ∧ ((exWalkOk exCtx).1 ≠ none →
        (ServeDNS (DefaultServerHandler.mk none false) exWalkOk true exCtx).defersRun = [])) :=
  ⟨by decide,
   serveDNS_defer_amended (DefaultServerHandler.mk none false) exWalkOk true exCtx (by decide)⟩

/-- C2: for every query that reaches pipeline execution and every walker
that keeps the question intact, the written reply is SERVFAIL (a
SetReply of the question with Rcode server failure) when the walker
errs or leaves status server-failed, otherwise the context's response
when it is non-nil, otherwise nothing; and on every path of ServeDNS at
most one message is written. -/
theorem serveDNS_reply_spec (h : DefaultServerHandler) (walk : Walker)
    (tok : Bool) (qCtx : QContext)
    (hq : (walk qCtx).2.q = qCtx.q) :
    ((ServeDNS h walk tok qCtx).entryExecuted = true →
      ((((walk qCtx).1 ≠ none ∨ (walk qCtx).2.status = ContextStatus.serverFailed) →
        (ServeDNS h walk tok qCtx).writes
          = [{ setReply qCtx.q with rcode := RcodeServerFailure }])
      ∧ ((walk qCtx).1 = none → (walk qCtx).2.status ≠ ContextStatus.serverFailed →
        (ServeDNS h walk tok qCtx).writes = ((walk qCtx).2.r).toList)))
    ∧ (ServeDNS h walk tok qCtx).writes.length ≤ 1 := by
  rcases ServeDNS_cases h walk tok qCtx with ⟨cl1, hs⟩ | ⟨cla, ab, hs⟩
  · rw [hs]
    exact ⟨fun hrun => by simp at hrun, by simp⟩
  · rw [hs]
    by_cases hcond : h.limiterEnabled = true ∧ tok = false
    · obtain ⟨h1, h2⟩ := hcond
      subst h2
      rw [h1, serveRest_drop]
      exact ⟨fun hrun => by simp at hrun, by simp⟩
    · rw [serveRest_run walk tok qCtx _ cla ab hcond]
      rcases hw : walk qCtx with ⟨err, c⟩
      rw [hw] at hq
      simp at hq
      cases err with
      | some e =>
        rw [execEntry_eq_of_err walk qCtx e c hw]
        refine ⟨fun _ => ⟨fun _ => ?_, fun heq _ => ?_⟩, ?_⟩
        · simp [hq]
        · simp at heq
        · simp [toList_length_le_one]
      | none =>
        rw [execEntry_eq_of_ok walk qCtx c hw]
        refine ⟨fun _ => ⟨fun hcase => ?_, fun _ hns => ?_⟩, ?_⟩
        · simp at hcase
          simp [hcase, hq]
        · simp at hns
          simp [hns]
        · simp [toList_length_le_one]

/-- C2 witness: with no limiters and a failing walker, the handler
writes exactly the SERVFAIL SetReply of the question. -/
theorem serveDNS_reply_spec_witness :
    (exWalkErr exCtx).2.q = exCtx.q
    ∧ (((ServeDNS (DefaultServerHandler.mk none false) exWalkErr true exCtx).entryExecuted = true →
        ((((exWalkErr exCtx).1 ≠ none ∨ (exWalkErr exCtx).2.status = ContextStatus.serverFailed) →
          (ServeDNS (DefaultServerHandler.mk none false) exWalkErr true exCtx).writes
            = [{ setReply exCtx.q with rcode := RcodeServerFailure }])
        ∧ ((exWalkErr exCtx).1 = none →
            (exWalkErr exCtx).2.status ≠ ContextStatus.serverFailed →
          (ServeDNS (DefaultServerHandler.mk none false) exWalkErr true exCtx).writes
            = ((exWalkErr exCtx).2.r).toList)))
      ∧ (ServeDNS (DefaultServerHandler.mk none false) exWalkErr true exCtx).writes.length ≤ 1) :=
  ⟨rfl, serveDNS_reply_spec (DefaultServerHandler.mk none false) exWalkErr true exCtx rfl⟩

/-- C7: when per-client limiting is on, the client address is non-nil
and Acquire on its textual key refuses, ServeDNS writes exactly one
REFUSED SetReply of the question and returns without executing the
entry, without running deferred actions and without touching the global
semaphore. -/
theorem serveDNS_refused_spec (cl : ClientQueryLimiter) (le : Bool) (walk : Walker)
    (tok : Bool) (qCtx : QContext) (addr : String)
    (hfrom : qCtx.fromAddr = some addr)
    (hacq : (Acquire cl addr).2 = false) :
    (ServeDNS (DefaultServerHandler.mk (some cl) le) walk tok qCtx).writes
        = [{ setReply qCtx.q with rcode := RcodeRefused }]
    ∧ (ServeDNS (DefaultServerHandler.mk (some cl) le) walk tok qCtx).entryExecuted = false
    ∧ (ServeDNS (DefaultServerHandler.mk (some cl) le) walk tok qCtx).defersRun = []
    ∧ (ServeDNS (DefaultServerHandler.mk (some cl) le) walk tok qCtx).semTouched = false := by
  rcases ha : Acquire cl addr with ⟨cl1, passed⟩
  rw [ha] at hacq
  simp only at hacq
  subst hacq
  simp [ServeDNS, hfrom, ha]

/-- C7 witness: client limit 1, the client already holding one live
query: the second query from the same address is refused. -/
theorem serveDNS_refused_spec_witness :
    exCtx.fromAddr = some "1.2.3.4:53"
    ∧ (Acquire (ClientQueryLimiter.mk 1 [("1.2.3.4:53", 1)]) "1.2.3.4:53").2 = false
    ∧ ((ServeDNS (DefaultServerHandler.mk (some (ClientQueryLimiter.mk 1 [("1.2.3.4:53", 1)])) true)
          exWalkOk true exCtx).writes
        = [{ setReply exCtx.q with rcode := RcodeRefused }]
      ∧ (ServeDNS (DefaultServerHandler.mk (some (ClientQueryLimiter.mk 1 [("1.2.3.4:53", 1)])) true)
          exWalkOk true exCtx).entryExecuted = false
      ∧ (ServeDNS (DefaultServerHandler.mk (some (ClientQueryLimiter.mk 1 [("1.2.3.4:53", 1)])) true)
          exWalkOk true exCtx).defersRun = []
      ∧ (ServeDNS (DefaultServerHandler.mk (some (ClientQueryLimiter.mk 1 [("1.2.3.4:53", 1)])) true)
          exWalkOk true exCtx).semTouched = false) :=
  ⟨rfl, by decide,
   serveDNS_refused_spec (ClientQueryLimiter.mk 1 [("1.2.3.4:53", 1)]) true exWalkOk true exCtx
     "1.2.3.4:53" rfl (by decide)⟩

/-- C8: when global limiting is enabled and the query's context becomes
done before a token is available (tokenAvailable false), any query that
reaches the semaphore is dropped silently: nothing is written, the entry
does not run, no deferred action runs. -/
theorem serveDNS_silent_drop (h : DefaultServerHandler) (walk : Walker) (qCtx : QContext)
    (hle : h.limiterEnabled = true)
    (hsem : (ServeDNS h walk false qCtx).semTouched = true) :
    (ServeDNS h walk false qCtx).writes = []
    ∧ (ServeDNS h walk false qCtx).entryExecuted = false
    ∧ (ServeDNS h walk false qCtx).defersRun = [] := by
  rcases ServeDNS_cases h walk false qCtx with ⟨cl1, hs⟩ | ⟨cla, ab, hs⟩
  · rw [hs] at hsem
    simp at hsem
  · rw [hs, hle, serveRest_drop]
    exact ⟨rfl, rfl, rfl⟩

/-- C8 witness: global limiting on, no per-client limiter, context done
before a token: the query is silently dropped. -/
theorem serveDNS_silent_drop_witness :
    (DefaultServerHandler.mk none true).limiterEnabled = true
    ∧ (ServeDNS (DefaultServerHandler.mk none true) exWalkOk false exCtx).semTouched = true
    ∧ ((ServeDNS (DefaultServerHandler.mk none true) exWalkOk false exCtx).writes = []
      ∧ (ServeDNS (DefaultServerHandler.mk none true) exWalkOk false exCtx).entryExecuted = false
      ∧ (ServeDNS (DefaultServerHandler.mk none true) exWalkOk false exCtx).defersRun = []) :=
  ⟨rfl, by decide,
   serveDNS_silent_drop (DefaultServerHandler.mk none true) exWalkOk exCtx rfl (by decide)⟩

end Mosdns
